import Mathlib

/-!
Verification of the `list` command of the runtime (src/list.go).

The Go source is shallowly embedded: pure functions become Lean functions,
the tabular writer is modelled at the level of its tab-separated cells
(tabwriter padding elided), the JSON encoder is modelled as a structured
JSON value reflecting Go `encoding/json` struct-encoding rules (field
order = declaration order, embedded struct fields inlined, `omitempty`
honoured, untagged fields keyed by the Go field name), and filesystem
access (`os.Stat` inside `getDirOwner`) is an explicit oracle parameter.
-/

set_option maxRecDepth 4000

/-- Model of a Go `time.Time` value as its broken-down calendar fields plus
a zone offset in minutes east of UTC.  `src/list.go` only ever formats
times with `time.RFC3339Nano`, so this is all the structure needed. -/
structure GoTime where
  year : Nat
  month : Nat
  day : Nat
  hour : Nat
  minute : Nat
  second : Nat
  nanosecond : Nat
  offsetMinutes : Int
deriving DecidableEq

/-- Left-pad the decimal representation of `n` with zeros to width `w`
(Go `fmt`-style zero padding). -/
def padZeros (w : Nat) (n : Nat) : String :=
  let s := toString n
  String.mk (List.replicate (w - s.length) '0') ++ s

/-- Drop trailing `'0'` characters (Go's trimming of the `.999999999`
fractional-second layout element). -/
def dropTrailingZeros (s : String) : String :=
  String.mk ((s.toList.reverse.dropWhile fun c => c = '0').reverse)

/-- The fractional-second part of the `RFC3339Nano` layout: empty when the
nanosecond field is zero, otherwise a dot followed by the nanoseconds with
trailing zeros removed. -/
def fracNano (n : Nat) : String :=
  if n = 0 then "" else "." ++ dropTrailingZeros (padZeros 9 n)

/-- The zone part of the `RFC3339Nano` layout (`Z07:00`): the literal `Z`
for UTC, otherwise a signed `hh:mm` offset. -/
def zonePart (m : Int) : String :=
  if m = 0 then "Z"
  else (if 0 < m then "+" else "-") ++
    padZeros 2 (m.natAbs / 60) ++ ":" ++ padZeros 2 (m.natAbs % 60)

/-- Modelled from the Go standard library: `t.Format(time.RFC3339Nano)`,
layout `2006-01-02T15:04:05.999999999Z07:00` (RFC 3339 with nanoseconds,
trailing fractional zeros removed). -/
def rfc3339Nano (t : GoTime) : String :=
  padZeros 4 t.year ++ "-" ++ padZeros 2 t.month ++ "-" ++ padZeros 2 t.day ++
  "T" ++ padZeros 2 t.hour ++ ":" ++ padZeros 2 t.minute ++ ":" ++
  padZeros 2 t.second ++ fracNano t.nanosecond ++ zonePart t.offsetMinutes

/-- Structure `containerState` from src/list.go: the platform agnostic pieces
relating to a running container's status and state.  The JSON tag of each
field is recorded in the JSON encoder below.  `Annotations` is modelled as
an association list standing for the Go map. -/
structure containerState where
  Version : String
  ID : String
  InitProcessPid : Int
  Status : String
  Bundle : String
  Rootfs : String
  Created : GoTime
  Annotations : List (String × String)
  Owner : String
deriving DecidableEq

/-- Structure `hypervisorDetails` from src/list.go: details of the hypervisor used
to host the container. -/
structure hypervisorDetails where
  HypervisorPath : String
  ImagePath : String
  KernelPath : String
deriving DecidableEq

/-- Structure `fullContainerState` from src/list.go: the core state plus the
hypervisor details.  The Go struct embeds `containerState`; `StaleAssets`
carries no json tag in the source. -/
structure fullContainerState extends containerState where
  CurrentHypervisorDetails : hypervisorDetails
  LatestHypervisorDetails : hypervisorDetails
  StaleAssets : List String
deriving DecidableEq

/-- Function `getStaleAssets` from src/list.go: compares the two specified
`hypervisorDetails` objects and returns the list of assets in `old` that
are not current compared to `new`.  Only the kernel and image paths are
compared. -/
def getStaleAssets (old new : hypervisorDetails) : List String :=
  let stale : List String := []
  let stale := if old.KernelPath ≠ new.KernelPath then stale ++ ["kernel"] else stale
  let stale := if old.ImagePath ≠ new.ImagePath then stale ++ ["image"] else stale
  stale

/-- Function `formatIDList.Write` from src/list.go: one line per container, holding
just the container ID.  The `showAll` argument is accepted but unused, as
in the source. -/
def formatIDList.Write (state : List fullContainerState) (showAll : Bool) : List String :=
  state.map fun item => item.ID

/-- The STALE cell computed inside `formatTabular.Write`:
`strings.Join(item.StaleAssets, ",")`, replaced by `"-"` when empty. -/
def staleCell (assets : List String) : String :=
  let stale := String.intercalate "," assets
  if stale = "" then "-" else stale

/-- The header row printed by `formatTabular.Write`. -/
def tabularHeader (showAll : Bool) : List String :=
  ["ID", "PID", "STATUS", "BUNDLE", "CREATED", "OWNER"] ++
  (if showAll then
    ["HYPERVISOR", "KERNEL", "IMAGE", "LATEST-KERNEL", "LATEST-IMAGE", "STALE"]
  else [])

/-- One data row printed by `formatTabular.Write` for one container. -/
def tabularRow (showAll : Bool) (item : fullContainerState) : List String :=
  [item.ID, toString item.InitProcessPid, item.Status, item.Bundle,
   rfc3339Nano item.Created, item.Owner] ++
  (if showAll then
    [item.CurrentHypervisorDetails.HypervisorPath,
     item.CurrentHypervisorDetails.KernelPath,
     item.CurrentHypervisorDetails.ImagePath,
     item.LatestHypervisorDetails.KernelPath,
     item.LatestHypervisorDetails.ImagePath,
     staleCell item.StaleAssets]
  else [])

/-- Function `formatTabular.Write` from src/list.go, modelled as the list of rows of
tab-separated cells it writes (the tabwriter's column padding is elided):
the header row followed by one row per container. -/
def formatTabular.Write (state : List fullContainerState) (showAll : Bool) :
    List (List String) :=
  tabularHeader showAll :: state.map (tabularRow showAll)

/-- Structured JSON values, the target of the `encoding/json` model. -/
inductive Json where
  | str : String → Json
  | num : Int → Json
  | obj : List (String × Json) → Json
  | arr : List Json → Json

/-- The keys of a JSON object (in encoding order). -/
def Json.keys : Json → List String
  | .obj fields => fields.map fun kv => kv.1
  | _ => []

/-- Go `encoding/json` encoding of `hypervisorDetails`, following the json
tags in src/list.go. -/
def hypervisorDetails.toJson (h : hypervisorDetails) : Json :=
  .obj [("hypervisorPath", .str h.HypervisorPath),
        ("imagePath", .str h.ImagePath),
        ("kernelPath", .str h.KernelPath)]

/-- Go `encoding/json` encoding of `fullContainerState`: the embedded
`containerState` fields are inlined first (with their json tags;
`annotations` carries `omitempty` and is dropped when the map is empty;
`time.Time` marshals as an RFC3339Nano string), then the outer fields.
`StaleAssets` has no json tag in the source, so its key is the Go field
name `StaleAssets`. -/
def fullContainerState.toJson (s : fullContainerState) : Json :=
  .obj (
    [("ociVersion", .str s.Version),
     ("id", .str s.ID),
     ("pid", .num s.InitProcessPid),
     ("status", .str s.Status),
     ("bundle", .str s.Bundle),
     ("rootfs", .str s.Rootfs),
     ("created", .str (rfc3339Nano s.Created))] ++
    (if s.Annotations.isEmpty then []
     else [("annotations", .obj (s.Annotations.map fun kv => (kv.1, .str kv.2)))]) ++
    [("owner", .str s.Owner),
     ("currentHypervisor", s.CurrentHypervisorDetails.toJson),
     ("latestHypervisor", s.LatestHypervisorDetails.toJson),
     ("StaleAssets", .arr (s.StaleAssets.map .str))])

/-- Function `formatJSON.Write` from src/list.go: `json.NewEncoder(file).Encode(state)`,
an array with one record per container.  The `showAll` argument is accepted
but unused, as in the source. -/
def formatJSON.Write (state : List fullContainerState) (showAll : Bool) : Json :=
  .arr (state.map fullContainerState.toJson)

/-- The outcome of `os.Stat` on a path, as used by `getDirOwner`: the stat
call can fail, succeed on a non-directory, or yield a directory whose owner
uid is recorded in `Stat_t.Uid`.  This oracle stands for the filesystem. -/
inductive StatResult where
  | statError : String → StatResult
  | notDir : StatResult
  | dir : Nat → StatResult

/-- Function `getDirOwner` from src/list.go: returns the UID of the specified
directory, or an error when the path is empty, the stat fails, or the path
is not a directory.  `fs` is the filesystem oracle standing for `os.Stat`. -/
def getDirOwner (fs : String → StatResult) (dir : String) : Except String Nat :=
  if dir = "" then .error "BUG: need directory"
  else match fs dir with
    | .statError e => .error e
    | .notDir => .error ("\"" ++ dir ++ "\" is not a directory")
    | .dir uid => .ok uid

/-- Modelled from the external collaborator `oci.StatusToOCIState`
(virtcontainers library, outside this repository): the OCI state fields it
derives from a container status.  `getContainers` only reads these fields
from its result. -/
structure OCIState where
  Version : String
  ID : String
  Pid : Int
  Status : String
  Bundle : String
  Annotations : List (String × String)
deriving DecidableEq

/-- A container status as returned inside `vci.ListPod`'s pods: the rootfs
path and start time read directly by `getContainers`, plus the OCI state
that `oci.StatusToOCIState` derives for it. -/
structure ContainerStatus where
  RootFs : String
  StartTime : GoTime
  ociState : OCIState
deriving DecidableEq

/-- The hypervisor configuration carried by a pod and by the runtime
configuration: the three asset paths read by `getContainers` and
`getHypervisorDetails`. -/
structure HypervisorConfig where
  HypervisorPath : String
  ImagePath : String
  KernelPath : String
deriving DecidableEq

/-- A pod as returned by `vci.ListPod`: its hypervisor configuration and
its container statuses. -/
structure Pod where
  HypervisorConfig : HypervisorConfig
  ContainersStatus : List ContainerStatus
deriving DecidableEq

/-- The slice of `oci.RuntimeConfig` read by `getHypervisorDetails`. -/
structure RuntimeConfig where
  HypervisorConfig : HypervisorConfig
deriving DecidableEq

/-- Function `getHypervisorDetails` from src/list.go: details of the latest version
of the hypervisor and the associated assets, read from the runtime
configuration. -/
def getHypervisorDetails (runtimeConfig : RuntimeConfig) : hypervisorDetails :=
  { HypervisorPath := runtimeConfig.HypervisorConfig.HypervisorPath,
    KernelPath := runtimeConfig.HypervisorConfig.KernelPath,
    ImagePath := runtimeConfig.HypervisorConfig.ImagePath }

/-- The record `getContainers` appends for one container status. -/
def mkFullState (c : ContainerStatus) (current latest : hypervisorDetails)
    (uid : Nat) : fullContainerState :=
  { Version := c.ociState.Version,
    ID := c.ociState.ID,
    InitProcessPid := c.ociState.Pid,
    Status := c.ociState.Status,
    Bundle := c.ociState.Bundle,
    Rootfs := c.RootFs,
    Created := c.StartTime,
    Annotations := c.ociState.Annotations,
    Owner := "#" ++ toString uid,
    CurrentHypervisorDetails := current,
    LatestHypervisorDetails := latest,
    StaleAssets := getStaleAssets current latest }

/-- The inner loop of `getContainers` over one pod's `ContainersStatus`:
each container's rootfs owner is looked up with `getDirOwner`, and any
error aborts the whole computation (`return nil, err` in the source). -/
def podContainers (fs : String → StatResult) (current latest : hypervisorDetails) :
    List ContainerStatus → Except String (List fullContainerState)
  | [] => .ok []
  | c :: cs =>
    match getDirOwner fs c.RootFs with
    | .error e => .error e
    | .ok uid =>
      match podContainers fs current latest cs with
      | .error e => .error e
      | .ok recs => .ok (mkFullState c current latest uid :: recs)

/-- The outer loop of `getContainers` over the pod list: pods with no
container statuses are skipped; for the rest, the pod's hypervisor
configuration gives the current details and every container status yields
one record. -/
def getContainersAux (fs : String → StatResult) (latest : hypervisorDetails) :
    List Pod → Except String (List fullContainerState)
  | [] => .ok []
  | pod :: rest =>
    if pod.ContainersStatus.length = 0 then
      getContainersAux fs latest rest
    else
      let current : hypervisorDetails :=
        { HypervisorPath := pod.HypervisorConfig.HypervisorPath,
          ImagePath := pod.HypervisorConfig.ImagePath,
          KernelPath := pod.HypervisorConfig.KernelPath }
      match podContainers fs current latest pod.ContainersStatus with
      | .error e => .error e
      | .ok recs =>
        match getContainersAux fs latest rest with
        | .error e => .error e
        | .ok more => .ok (recs ++ more)

/-- Function `getContainers` from src/list.go, given the filesystem oracle, the
runtime configuration and the pod list returned by `vci.ListPod`. -/
def getContainers (fs : String → StatResult) (runtimeConfig : RuntimeConfig)
    (podList : List Pod) : Except String (List fullContainerState) :=
  getContainersAux fs (getHypervisorDetails runtimeConfig) podList

/-- The output written by the `list` command: an ID list (quiet mode), a
table, or a JSON document. -/
inductive ListOutput where
  | idList : List String → ListOutput
  | tabular : List (List String) → ListOutput
  | jsonOut : Json → ListOutput

/-- The `Action` of `listCLICommand` from src/list.go: fetch the containers
(failure is returned as-is), then write IDs when `--quiet` is set, else
dispatch on `--format`: `table`, `json`, or the error
`invalid format option`. -/
def listCLICommand.Action (containers : Except String (List fullContainerState))
    (quiet showAll : Bool) (format : String) : Except String ListOutput :=
  match containers with
  | .error e => .error e
  | .ok s =>
    if quiet then .ok (.idList (formatIDList.Write s showAll))
    else if format = "table" then .ok (.tabular (formatTabular.Write s showAll))
    else if format = "json" then .ok (.jsonOut (formatJSON.Write s showAll))
    else .error "invalid format option"

/-- Whether an `Except` value is a success (`Except.isOk`). -/
def isOkE {α : Type} : Except String α → Bool
  | .ok _ => true
  | .error _ => false

/-- Cell `c` of row `r` of a table, when present. -/
def tableCell (t : List (List String)) (r c : Nat) : Option String :=
  (t.get? r).bind fun row => row.get? c

/-- The keys of record `i` of a JSON array of objects. -/
def jsonRecordKeys (j : Json) (i : Nat) : List String :=
  match j with
  | .arr items =>
    match items.get? i with
    | some r => r.keys
    | none => []
  | _ => []

lemma listGetMap {α β : Type} (f : α → β) :
    ∀ (l : List α) (i : Nat) (h : i < l.length),
      (l.map f).get? i = some (f (l.get ⟨i, h⟩))
  | _ :: _, 0, _ => rfl
  | _ :: l, i + 1, h => listGetMap f l i (Nat.lt_of_succ_lt_succ h)

example : getStaleAssets ⟨"h", "i", "k"⟩ ⟨"h", "i", "k"⟩ = [] := by decide
example : getStaleAssets ⟨"h", "i", "k"⟩ ⟨"h", "i2", "k2"⟩ = ["kernel", "image"] := by decide
example : staleCell [] = "-" := by decide
example : staleCell ["kernel", "image"] = "kernel,image" := by decide
example :
    rfc3339Nano ⟨2017, 5, 4, 9, 30, 0, 500000000, 0⟩ = "2017-05-04T09:30:00.5Z" := by decide

/-- A pair of hypervisor-details values that differ only in the hypervisor
path; used to refute claim C1 as stated. -/
def c1old : hypervisorDetails :=
  { HypervisorPath := "/usr/bin/qemu-lite",
    ImagePath := "/usr/share/clear-containers/clear-containers.img",
    KernelPath := "/usr/share/clear-containers/vmlinuz" }

/-- The configured-latest counterpart of `c1old`: a different hypervisor
path, identical kernel and image paths. -/
def c1latest : hypervisorDetails :=
  { HypervisorPath := "/usr/bin/qemu-system-x86_64",
    ImagePath := "/usr/share/clear-containers/clear-containers.img",
    KernelPath := "/usr/share/clear-containers/vmlinuz" }

/-- C1 counterexample: the claim says `getStaleAssets old new` reports
staleness whenever any of the hypervisor, kernel, or image paths of `old`
and `new` differ; but for a pair differing only in the hypervisor path it
reports nothing. -/
theorem C1_counterexample :
    c1old.HypervisorPath ≠ c1latest.HypervisorPath ∧
    getStaleAssets c1old c1latest = [] := by
  decide

/-- C1 (amended): `getStaleAssets old new` reports staleness exactly when
the kernel or the guest-image path differs: `"kernel"` is reported iff the
kernel paths differ, `"image"` iff the image paths differ, and the result
is empty iff both agree; the hypervisor path is not compared. -/
theorem C1_getStaleAssets_amended (old new : hypervisorDetails) :
    ("kernel" ∈ getStaleAssets old new ↔ old.KernelPath ≠ new.KernelPath) ∧
    ("image" ∈ getStaleAssets old new ↔ old.ImagePath ≠ new.ImagePath) ∧
    (getStaleAssets old new = [] ↔
      (old.KernelPath = new.KernelPath ∧ old.ImagePath = new.ImagePath)) := by
  by_cases hk : old.KernelPath = new.KernelPath <;>
    by_cases hi : old.ImagePath = new.ImagePath <;>
      simp [getStaleAssets, hk, hi]

/-- C2: for every record whose stale-asset list comes from
`getStaleAssets`, the STALE cell rendered by the tabular writer (the last
of the twelve `--cc-all` columns) is `"-"` when nothing is stale,
`"kernel"`/`"image"` when exactly one asset is stale, and `"kernel,image"`
(kernel first) when both are. -/
theorem C2_stale_column (rec : fullContainerState) (old new : hypervisorDetails) :
    tableCell
        (formatTabular.Write [{ rec with StaleAssets := getStaleAssets old new }] true)
        1 11 =
      some (if old.KernelPath ≠ new.KernelPath then
              (if old.ImagePath ≠ new.ImagePath then "kernel,image" else "kernel")
            else
              (if old.ImagePath ≠ new.ImagePath then "image" else "-")) := by
  have h1 : tableCell
      (formatTabular.Write [{ rec with StaleAssets := getStaleAssets old new }] true)
      1 11 = some (staleCell (getStaleAssets old new)) := rfl
  rw [h1]
  by_cases hk : old.KernelPath = new.KernelPath <;>
    by_cases hi : old.ImagePath = new.ImagePath <;>
      simp [getStaleAssets, hk, hi] <;> decide

/-- C5: with `--quiet` unset, every format other than `table` and `json`
makes the list action fail with the `invalid format option` error, while
`table` and `json` succeed with the corresponding writer's output. -/
theorem C5_format_validation (s : List fullContainerState) (showAll : Bool)
    (format : String) :
    (format ≠ "table" → format ≠ "json" →
      listCLICommand.Action (.ok s) false showAll format =
        .error "invalid format option") ∧
    listCLICommand.Action (.ok s) false showAll "table" =
      .ok (.tabular (formatTabular.Write s showAll)) ∧
    listCLICommand.Action (.ok s) false showAll "json" =
      .ok (.jsonOut (formatJSON.Write s showAll)) := by
  refine ⟨fun h1 h2 => ?_, rfl, rfl⟩
  simp [listCLICommand.Action, h1, h2]

/-- C5 witness: the unknown format `yaml` is rejected. -/
theorem C5_format_validation_witness :
    listCLICommand.Action (.ok []) false false "yaml" =
      .error "invalid format option" :=
  (C5_format_validation [] false "yaml").1 (by decide) (by decide)

/-- C8: with `--quiet` set the list action never looks at the format: for
every format string (valid or not) it succeeds with one ID per line, and
any two formats give identical output. -/
theorem C8_quiet_ignores_format (s : List fullContainerState) (showAll : Bool)
    (fmtA fmtB : String) :
    listCLICommand.Action (.ok s) true showAll fmtA =
      .ok (.idList (s.map fun item => item.ID)) ∧
    listCLICommand.Action (.ok s) true showAll fmtA =
      listCLICommand.Action (.ok s) true showAll fmtB := by
  exact ⟨rfl, rfl⟩

/-- C10: the JSON and ID-list writers are independent of the show-all
flag — two runs differing only in `showAll` produce identical output —
while the tabular writer does read it (its header differs). -/
theorem C10_showAll_independence (s : List fullContainerState) (a b : Bool) :
    formatJSON.Write s a = formatJSON.Write s b ∧
    formatIDList.Write s a = formatIDList.Write s b ∧
    formatTabular.Write [] true ≠ formatTabular.Write [] false := by
  refine ⟨rfl, rfl, ?_⟩
  decide

/-- C6: the table's header row is exactly `ID PID STATUS BUNDLE CREATED
OWNER`, extended under show-all by `HYPERVISOR KERNEL IMAGE LATEST-KERNEL
LATEST-IMAGE STALE` in that order, and each container contributes one data
row whose fields appear in header order. -/
theorem C6_table_columns (state : List fullContainerState) :
    (formatTabular.Write state false).get? 0 =
      some ["ID", "PID", "STATUS", "BUNDLE", "CREATED", "OWNER"] ∧
    (formatTabular.Write state true).get? 0 =
      some ["ID", "PID", "STATUS", "BUNDLE", "CREATED", "OWNER",
            "HYPERVISOR", "KERNEL", "IMAGE", "LATEST-KERNEL", "LATEST-IMAGE",
            "STALE"] ∧
    ∀ i, (h : i < state.length) →
      (formatTabular.Write state false).get? (i + 1) =
        some [(state.get ⟨i, h⟩).ID,
              toString (state.get ⟨i, h⟩).InitProcessPid,
              (state.get ⟨i, h⟩).Status,
              (state.get ⟨i, h⟩).Bundle,
              rfc3339Nano (state.get ⟨i, h⟩).Created,
              (state.get ⟨i, h⟩).Owner] ∧
      (formatTabular.Write state true).get? (i + 1) =
        some [(state.get ⟨i, h⟩).ID,
              toString (state.get ⟨i, h⟩).InitProcessPid,
              (state.get ⟨i, h⟩).Status,
              (state.get ⟨i, h⟩).Bundle,
              rfc3339Nano (state.get ⟨i, h⟩).Created,
              (state.get ⟨i, h⟩).Owner,
              (state.get ⟨i, h⟩).CurrentHypervisorDetails.HypervisorPath,
              (state.get ⟨i, h⟩).CurrentHypervisorDetails.KernelPath,
              (state.get ⟨i, h⟩).CurrentHypervisorDetails.ImagePath,
              (state.get ⟨i, h⟩).LatestHypervisorDetails.KernelPath,
              (state.get ⟨i, h⟩).LatestHypervisorDetails.ImagePath,
              staleCell (state.get ⟨i, h⟩).StaleAssets] := by
  refine ⟨rfl, rfl, fun i h => ⟨?_, ?_⟩⟩
  · have h1 : (formatTabular.Write state false).get? (i + 1) =
        some (tabularRow false (state.get ⟨i, h⟩)) :=
      listGetMap (tabularRow false) state i h
    rw [h1]
    rfl
  · have h1 : (formatTabular.Write state true).get? (i + 1) =
        some (tabularRow true (state.get ⟨i, h⟩)) :=
      listGetMap (tabularRow true) state i h
    rw [h1]
    rfl

/-- A sample container record used as a concrete witness input. -/
def sampleState : fullContainerState :=
  { Version := "1.0.0-rc5",
    ID := "vm1",
    InitProcessPid := 1234,
    Status := "running",
    Bundle := "/tmp/bundle",
    Rootfs := "/var/lib/run/vm1/rootfs",
    Created := ⟨2017, 5, 4, 9, 30, 0, 500000000, 0⟩,
    Annotations := [("a", "b")],
    Owner := "#0",
    CurrentHypervisorDetails := c1old,
    LatestHypervisorDetails := c1latest,
    StaleAssets := getStaleAssets c1old c1latest }

/-- C6 witness: the data row of a one-container listing, at concrete
input. -/
theorem C6_table_columns_witness :
    (formatTabular.Write [sampleState] true).get? 1 =
      some ["vm1", "1234", "running", "/tmp/bundle", "2017-05-04T09:30:00.5Z",
            "#0", "/usr/bin/qemu-lite",
            "/usr/share/clear-containers/vmlinuz",
            "/usr/share/clear-containers/clear-containers.img",
            "/usr/share/clear-containers/vmlinuz",
            "/usr/share/clear-containers/clear-containers.img", "-"] :=
  (((C6_table_columns [sampleState]).2.2 0 (by decide)).2).trans (by decide)

/-- C7: in the table output, the CREATED field (column index 4) of every
data row is the container's creation timestamp formatted with the
RFC3339Nano layout. -/
theorem C7_created_rfc3339nano (state : List fullContainerState)
    (showAll : Bool) (i : Nat) (h : i < state.length) :
    tableCell (formatTabular.Write state showAll) (i + 1) 4 =
      some (rfc3339Nano (state.get ⟨i, h⟩).Created) := by
  have h1 : (formatTabular.Write state showAll).get? (i + 1) =
      some (tabularRow showAll (state.get ⟨i, h⟩)) :=
    listGetMap (tabularRow showAll) state i h
  unfold tableCell
  rw [h1]
  rfl

/-- C7 witness: the CREATED cell at a concrete time, showing the
RFC3339Nano rendering (fractional seconds trimmed, `Z` zone). -/
theorem C7_created_rfc3339nano_witness :
    tableCell (formatTabular.Write [sampleState] true) 1 4 =
      some "2017-05-04T09:30:00.5Z" :=
  (C7_created_rfc3339nano [sampleState] true 0 (by decide)).trans (by decide)

/-- C3 counterexample: the claim says each JSON record carries the key
`staleAssets` with exactly that spelling; the records actually carry
`StaleAssets` (the `StaleAssets` field of `fullContainerState` has no json
tag in the source, so `encoding/json` uses the Go field name). -/
theorem C3_counterexample :
    ¬ "staleAssets" ∈ jsonRecordKeys (formatJSON.Write [sampleState] false) 0 ∧
    "StaleAssets" ∈ jsonRecordKeys (formatJSON.Write [sampleState] false) 0 := by
  decide

/-- C3 (amended): the JSON output is an array with one record per
container; each record carries the persisted container-state keys
`ociVersion id pid status bundle rootfs created [annotations] owner` (with
`annotations` present iff the annotation map is nonempty, per `omitempty`)
plus `currentHypervisor`, `latestHypervisor`, and `StaleAssets` — the last
spelled with a capital S, since the field carries no json tag. -/
theorem C3_json_keys_amended (state : List fullContainerState) (showAll : Bool)
    (i : Nat) (h : i < state.length) :
    jsonRecordKeys (formatJSON.Write state showAll) i =
      ["ociVersion", "id", "pid", "status", "bundle", "rootfs", "created"] ++
      (if (state.get ⟨i, h⟩).Annotations.isEmpty then [] else ["annotations"]) ++
      ["owner", "currentHypervisor", "latestHypervisor", "StaleAssets"] := by
  have h1 : (state.map fullContainerState.toJson).get? i =
      some (fullContainerState.toJson (state.get ⟨i, h⟩)) :=
    listGetMap fullContainerState.toJson state i h
  show (match (state.map fullContainerState.toJson).get? i with
        | some r => r.keys
        | none => ([] : List String)) = _
  rw [h1]
  show (fullContainerState.toJson (state.get ⟨i, h⟩)).keys = _
  simp only [fullContainerState.toJson, Json.keys, List.map_append]
  cases he : (state.get ⟨i, h⟩).Annotations with
  | nil => simp
  | cons a l => simp

/-- C3 witness: the key list of a concrete record with nonempty
annotations. -/
theorem C3_json_keys_amended_witness :
    jsonRecordKeys (formatJSON.Write [sampleState] false) 0 =
      ["ociVersion", "id", "pid", "status", "bundle", "rootfs", "created",
       "annotations", "owner", "currentHypervisor", "latestHypervisor",
       "StaleAssets"] :=
  (C3_json_keys_amended [sampleState] false 0 (by decide)).trans (by decide)

/-- Filesystem oracle for the C4 counterexample: `/ok` stats as a
directory owned by uid 1000; every other path fails to stat. -/
def c4fs : String → StatResult := fun dir =>
  if dir = "/ok" then .dir 1000 else .statError "no such file"

/-- Runtime configuration for the C4 counterexample. -/
def c4cfg : RuntimeConfig :=
  { HypervisorConfig :=
      { HypervisorPath := "/usr/bin/qemu-lite",
        ImagePath := "/usr/share/clear-containers/clear-containers.img",
        KernelPath := "/usr/share/clear-containers/vmlinuz" } }

/-- A container whose rootfs stats fine. -/
def c4good : ContainerStatus :=
  { RootFs := "/ok",
    StartTime := ⟨2017, 5, 4, 9, 30, 0, 0, 0⟩,
    ociState := ⟨"1.0.0-rc5", "good", 100, "running", "/b1", []⟩ }

/-- A container whose rootfs fails to stat. -/
def c4bad : ContainerStatus :=
  { RootFs := "/gone",
    StartTime := ⟨2017, 5, 4, 9, 31, 0, 0, 0⟩,
    ociState := ⟨"1.0.0-rc5", "bad", 101, "running", "/b2", []⟩ }

/-- A pod list with one readable record and one failing record. -/
def c4pods : List Pod :=
  [{ HypervisorConfig := c4cfg.HypervisorConfig,
     ContainersStatus := [c4good, c4bad] }]

/-- C4 counterexample: the claim says the list command ignores failing
records and still produces output for the remaining ones; on a collection
with one good and one failing record, `getContainers` instead fails the
whole listing with the record's error. -/
theorem C4_counterexample :
    getContainers c4fs c4cfg c4pods = .error "no such file" := by
  rfl

lemma podContainersIsOk (fs : String → StatResult)
    (current latest : hypervisorDetails) (cs : List ContainerStatus) :
    isOkE (podContainers fs current latest cs) =
      cs.all fun c => isOkE (getDirOwner fs c.RootFs) := by
  induction cs with
  | nil => rfl
  | cons c cs ih =>
    simp only [podContainers, List.all_cons]
    rw [← ih]
    cases hg : getDirOwner fs c.RootFs with
    | error e => rfl
    | ok uid =>
      cases hr : podContainers fs current latest cs with
      | error e => rfl
      | ok recs => rfl

/-- C4 (amended): a per-record error does not get skipped: `getContainers`
succeeds exactly when the rootfs-owner lookup succeeds for every record of
every pod; any failing record fails the whole listing. -/
theorem C4_per_record_error_aborts (fs : String → StatResult)
    (cfg : RuntimeConfig) (pods : List Pod) :
    isOkE (getContainers fs cfg pods) =
      pods.all fun p =>
        p.ContainersStatus.all fun c => isOkE (getDirOwner fs c.RootFs) := by
  unfold getContainers
  induction pods with
  | nil => rfl
  | cons p rest ih =>
    simp only [getContainersAux, List.all_cons]
    rw [← ih]
    by_cases hlen : p.ContainersStatus.length = 0
    · have he : p.ContainersStatus = [] := List.length_eq_zero.mp hlen
      rw [if_pos hlen, he, List.all_nil, Bool.true_and]
    · rw [if_neg hlen,
        ← podContainersIsOk fs
          { HypervisorPath := p.HypervisorConfig.HypervisorPath,
            ImagePath := p.HypervisorConfig.ImagePath,
            KernelPath := p.HypervisorConfig.KernelPath }
          (getHypervisorDetails cfg)]
      cases hp : podContainers fs
          { HypervisorPath := p.HypervisorConfig.HypervisorPath,
            ImagePath := p.HypervisorConfig.ImagePath,
            KernelPath := p.HypervisorConfig.KernelPath }
          (getHypervisorDetails cfg) p.ContainersStatus with
      | error e => rfl
      | ok recs =>
        cases ha : getContainersAux fs (getHypervisorDetails cfg) rest with
        | error e => rfl
        | ok more => rfl

/-- C9: pods with no container statuses contribute nothing: the record
list of `getContainers` equals the one computed from the pod list with all
empty pods filtered out, so every record originates from a pod with at
least one container status. -/
theorem C9_empty_pods_ignored (fs : String → StatResult) (cfg : RuntimeConfig)
    (pods : List Pod) :
    getContainers fs cfg pods =
      getContainers fs cfg (pods.filter fun p => !p.ContainersStatus.isEmpty) := by
  unfold getContainers
  induction pods with
  | nil => rfl
  | cons p rest ih =>
    by_cases hlen : p.ContainersStatus.length = 0
    · have he : p.ContainersStatus = [] := List.length_eq_zero.mp hlen
      have hf : (p :: rest).filter (fun p => !p.ContainersStatus.isEmpty) =
          rest.filter fun p => !p.ContainersStatus.isEmpty := by
        simp [List.filter_cons, he]
      rw [hf]
      simp only [getContainersAux, if_pos hlen]
      exact ih
    · have he : (!p.ContainersStatus.isEmpty) = true := by
        cases hcs : p.ContainersStatus with
        | nil => exact absurd (by rw [hcs]; rfl) hlen
        | cons a l => rfl
      have hf : (p :: rest).filter (fun p => !p.ContainersStatus.isEmpty) =
          p :: rest.filter fun p => !p.ContainersStatus.isEmpty := by
        simp [List.filter_cons, he]
      rw [hf]
      simp only [getContainersAux, if_neg hlen]
      rw [ih]
